import Mathlib

/-!
Verification development for a conversational loan-sales assistant.

The repository consists of an API server (`app/`: config, models, session
store, RAG subsystem, conversational agent, FastAPI endpoints) and a
standalone CLI prototype (a LangGraph state machine with tool functions).
This file gives a shallow embedding of the deterministic parts of that
code — the agent's business-logic pass, the session store's message
trimming, the chat endpoint flow, the RAG query, the CLI router and CLI
tools — and proves the specification claims about them.

Modelling conventions:
* Python strings are Lean `String`s; the helpers below (`pyLower`,
  `pySplit`, `stripBoth`, substring containment, the amount regex) mirror
  the exact Python operations used by the source (`str.lower`,
  `str.split()`, `str.strip(".,!?")`, the `in` operator,
  `re.search(r'(\d+)\s*(lakh|lakhs|thousand|k)', ...)`).
* Python ints are `Int`; Python floats (the interest rate) are `ℚ`, with
  `round(x, 2)` modelled as rounding to an integer number of hundredths.
* Randomness (`random.randint`, `random.uniform`) is passed in explicitly
  as parameters; the documented ranges become hypotheses (`RandOK`).
* Optional / falsy fields (`None`, `0`, `""`) follow Python truthiness via
  `truthyOptStr` / `truthyOptInt`.
-/

/-- The apostrophe character, written via its code point so that string
literals in this file stay plain ASCII without quote characters. -/
def apos : String := String.singleton (Char.ofNat 39)

/-- Whitespace for Python `str.split()` and the regex class `\s`
(space, tab, newline, carriage return, vertical tab, form feed). -/
def isSpaceChar (c : Char) : Bool :=
  c = ' ' || c = '\t' || c = '\n' || c = '\r' || c = Char.ofNat 11 || c = Char.ofNat 12

/-- Auxiliary for `pySplit`: accumulates the current word (reversed). -/
def splitWSAux : List Char → List Char → List (List Char)
  | [], acc => if acc.isEmpty then [] else [acc.reverse]
  | c :: cs, acc =>
    if isSpaceChar c then
      if acc.isEmpty then splitWSAux cs [] else acc.reverse :: splitWSAux cs []
    else splitWSAux cs (c :: acc)

/-- Python `str.split()` (no argument): split on runs of whitespace,
dropping empty words. -/
def pySplit (s : String) : List String :=
  (splitWSAux s.toList []).map (fun cs => String.mk cs)

/-- Python `str.lower()` (the source only lowercases ASCII text). -/
def pyLower (s : String) : String :=
  String.mk (s.toList.map Char.toLower)

/-- Whether `p` is a leading segment of `l` (used for substring search). -/
def listIsPre : List Char → List Char → Bool
  | [], _ => true
  | _ :: _, [] => false
  | p :: ps, c :: cs => p = c && listIsPre ps cs

/-- Python's `needle in haystack` for strings: substring containment. -/
def subIn (needle haystack : List Char) : Bool :=
  match haystack with
  | [] => listIsPre needle []
  | _ :: t => listIsPre needle haystack || subIn needle t

/-- String-level wrapper for `subIn`. -/
def strIn (needle haystack : String) : Bool :=
  subIn needle.toList haystack.toList

/-- Python `str.strip(cut)`: remove characters of `cut` from both ends. -/
def stripBoth (cut : List Char) (s : List Char) : List Char :=
  ((s.dropWhile (fun c => cut.contains c)).reverse.dropWhile
    (fun c => cut.contains c)).reverse

/-- The punctuation set of `strip(".,!?")` in the name-extraction code. -/
def punctCut : List Char := ['.', ',', '!', '?']

/-- String-level wrapper for the `.strip(".,!?")` call. -/
def stripPunct (s : String) : String := String.mk (stripBoth punctCut s.toList)

/-- Value of a decimal digit run, as Python `int()` reads it. -/
def digitsToNat (ds : List Char) : Nat :=
  ds.foldl (fun n c => n * 10 + (c.toNat - '0'.toNat)) 0

/-- Python `list.index` as an option: index of the first occurrence. -/
def idxOf? : List String → String → Option Nat
  | [], _ => none
  | w :: ws, t => if w = t then some 0 else (idxOf? ws t).map (· + 1)

/-- The regex alternation `(lakh|lakhs|thousand|k)` tried at one position,
alternatives in source order (so `lakhs` can never win over `lakh`). -/
def unitAt (cs : List Char) : Option String :=
  if listIsPre "lakh".toList cs then some "lakh"
  else if listIsPre "lakhs".toList cs then some "lakhs"
  else if listIsPre "thousand".toList cs then some "thousand"
  else if listIsPre ['k'] cs then some "k"
  else none

/-- Leftmost match of `re.search(r'(\d+)\s*(lakh|lakhs|thousand|k)', s)`:
scan positions left to right; at a digit take the maximal digit run, skip
whitespace, and try the unit alternation.  This equals the regex search
because the alternatives start with letters, so neither the greedy `\d+`
nor the greedy `\s*` ever needs to backtrack. -/
def amountSearch : List Char → Option (Nat × String)
  | [] => none
  | c :: cs =>
    if c.isDigit then
      let ds := (c :: cs).takeWhile Char.isDigit
      let rest := ((c :: cs).dropWhile Char.isDigit).dropWhile isSpaceChar
      match unitAt rest with
      | some u => some (digitsToNat ds, u)
      | none => amountSearch cs
    else amountSearch cs

/-- Python `str.capitalize()`: first character upper-cased, rest lowered. -/
def pyCapitalize (s : String) : String :=
  match s.toList with
  | [] => ""
  | c :: cs => String.mk (c.toUpper :: cs.map Char.toLower)

/-- Python truthiness of an optional string (`None` and `""` are falsy). -/
def truthyOptStr : Option String → Bool
  | none => false
  | some s => s ≠ ""

/-- Python truthiness of an optional integer (`None` and `0` are falsy). -/
def truthyOptInt : Option Int → Bool
  | none => false
  | some n => n ≠ 0

/-- Loan status values, from `app/models.py` (`LoanStatus`) and the CLI
prototype's `LoanApplication.status` literal type. -/
inductive LoanStatus where
  | initiated
  | kyc_pending
  | credit_check_pending
  | offer_made
  | sanctioned
  | rejected
  | completed
deriving DecidableEq, Repr

/-- Credit-eligibility values, from `app/models.py` (`CreditEligibility`). -/
inductive CreditEligibility where
  | eligible
  | not_eligible
  | pending
deriving DecidableEq, Repr

/-- The loan-application record, from `SessionManager.create_session` in
`app/core/session.py` (the CLI prototype's `LoanApplication` model has the
same fields except `sanction_letter_url`, which the CLI keeps in
`extracted_info` instead; the CLI tools below simply leave that field
untouched). -/
structure LoanApplication where
  applicant_name : Option String := none
  desired_amount : Option Int := none
  loan_term_months : Option Int := none
  purpose : Option String := none
  kyc_verified : Bool := false
  credit_score : Option Int := none
  credit_eligibility : CreditEligibility := .pending
  offered_amount : Option Int := none
  offered_interest_rate : Option ℚ := none
  sanction_letter_generated : Bool := false
  sanction_letter_url : Option String := none
  status : LoanStatus := .initiated
deriving DecidableEq, Repr

/-- The loan application of a freshly created session. -/
def freshLoanApplication : LoanApplication := {}

/-- Configured minimum qualifying credit score (`app/config.py`). -/
def MIN_CREDIT_SCORE : Int := 650

/-- Configured maximum personal-loan amount (`app/config.py`). -/
def MAX_PERSONAL_LOAN : Int := 500000

/-- Configured maximum retained messages per session (`app/config.py`). -/
def MAX_MESSAGE_HISTORY : Nat := 50

/-- The random draws consumed by one `_process_business_logic` pass in
`app/core/agent.py`: `random.randint(600, 850)` for the credit score,
`random.randint(300000, 500000)` for the offer cap, `random.uniform(10.0,
12.5)` for the rate (before rounding), `random.randint(1000, 9999)` for
the sanction-letter file name. -/
structure AgentRand where
  creditScore : Int
  offerDraw : Int
  rateDraw : ℚ
  letterNum : Int
deriving Repr

/-- Ranges the four draws of `AgentRand` are guaranteed to lie in, per the
`random.randint` / `random.uniform` calls in `app/core/agent.py`. -/
def RandOK (r : AgentRand) : Prop :=
  600 ≤ r.creditScore ∧ r.creditScore ≤ 850 ∧
  300000 ≤ r.offerDraw ∧ r.offerDraw ≤ 500000 ∧
  10 ≤ r.rateDraw ∧ r.rateDraw ≤ (25 : ℚ) / 2 ∧
  1000 ≤ r.letterNum ∧ r.letterNum ≤ 9999

/-- Python `round(x, 2)` on the interest rate: round to a whole number of
hundredths.  (`ℚ`'s `round` is round-half-up while Python floats use
round-half-even; no claim depends on tie behaviour.) -/
def roundTo2 (x : ℚ) : ℚ := ((round (100 * x) : ℤ) : ℚ) / 100

/-- Name-extraction step of `_process_business_logic`
(`app/core/agent.py` lines 192-199): if the name is still falsy and the
lower-cased text contains one of the trigger phrases, find the first
literal token `"is"` in the raw split and take the following one-to-two
words joined by a space, stripped of `".,!?"` at both ends; no-op if no
token `"is"` exists or nothing follows it. -/
def extractName (userMessage : String) (app : LoanApplication) : LoanApplication :=
  if truthyOptStr app.applicant_name = false ∧
      (strIn "name is" (pyLower userMessage) || strIn "i am" (pyLower userMessage) ||
        strIn ("i" ++ apos ++ "m") (pyLower userMessage)) = true then
    match idxOf? (pySplit userMessage) "is" with
    | some i =>
      if i + 1 < (pySplit userMessage).length then
        let nm := stripPunct
          (String.intercalate " " (((pySplit userMessage).drop (i + 1)).take 2))
        {app with applicant_name := some nm}
      else app
    | none => app
  else app

/-- Amount-extraction step of `_process_business_logic`
(`app/core/agent.py` lines 202-211): regex search for a number followed by
a unit in the lower-cased text; `lakh` multiplies by 100000, `k` or
`thousand` by 1000. -/
def extractAmount (userMessage : String) (app : LoanApplication) : LoanApplication :=
  if truthyOptInt app.desired_amount = false then
    match amountSearch (pyLower userMessage).toList with
    | some (num, unit) =>
      if strIn "lakh" unit = true then
        {app with desired_amount := some ((num : Int) * 100000)}
      else if (strIn "k" unit || strIn "thousand" unit) = true then
        {app with desired_amount := some ((num : Int) * 1000)}
      else app
    | none => app
  else app

/-- The fixed purpose keywords of `_process_business_logic`. -/
def purposesList : List String :=
  ["home", "car", "education", "medical", "wedding", "business", "renovation"]

/-- Purpose-extraction step of `_process_business_logic`
(`app/core/agent.py` lines 214-219): first keyword occurring as a
substring of the lower-cased text wins, stored capitalized. -/
def extractPurpose (userMessage : String) (app : LoanApplication) : LoanApplication :=
  if truthyOptStr app.purpose = false then
    match purposesList.find? (fun p => strIn p (pyLower userMessage)) with
    | some p => {app with purpose := some (pyCapitalize p)}
    | none => app
  else app

/-- Auto-KYC step of `_process_business_logic` (`app/core/agent.py` lines
222-225): once a name is truthy and KYC is not yet verified, mark verified
and advance to `credit_check_pending`. -/
def autoKyc (app : LoanApplication) : LoanApplication :=
  if truthyOptStr app.applicant_name = true ∧ app.kyc_verified = false then
    {app with kyc_verified := true, status := .credit_check_pending}
  else app

/-- Auto credit-check step of `_process_business_logic`
(`app/core/agent.py` lines 228-244): guarded by truthy amount, verified
KYC and pending eligibility; stores the drawn score, then either makes an
offer (score at least `MIN_CREDIT_SCORE` and amount at most
`MAX_PERSONAL_LOAN`) or rejects. -/
def autoCredit (r : AgentRand) (app : LoanApplication) : LoanApplication :=
  match app.desired_amount with
  | none => app
  | some amount =>
    if app.kyc_verified = true ∧ amount ≠ 0 ∧ app.credit_eligibility = .pending then
      let app1 := {app with credit_score := some r.creditScore}
      if MIN_CREDIT_SCORE ≤ r.creditScore ∧ amount ≤ MAX_PERSONAL_LOAN then
        {app1 with credit_eligibility := .eligible,
                   offered_amount := some (min amount r.offerDraw),
                   offered_interest_rate := some (roundTo2 r.rateDraw),
                   status := .offer_made}
      else
        {app1 with credit_eligibility := .not_eligible, status := .rejected}
    else app

/-- The acceptance keywords of the auto-sanction step. -/
def acceptWords : List String := ["yes", "accept", "agree", "proceed"]

/-- The mock sanction-letter URL of `_process_business_logic`.  The source
calls `.replace(' ', '_')` on the applicant name; it assumes a name is
present (a `None` name would raise), so the model reads it with default
`""` — every state that reaches this step has a name set. -/
def sanctionUrl (name : String) (num : Int) : String :=
  "https://mock-bank.com/sanction_letters/" ++
    (name.map (fun c => if c = ' ' then '_' else c)) ++ "_" ++ toString num ++ ".pdf"

/-- Auto-sanction step of `_process_business_logic` (`app/core/agent.py`
lines 247-253): if an offer is on the table and the lower-cased user text
contains an acceptance keyword, generate the letter and advance to
`sanctioned`. -/
def autoSanction (r : AgentRand) (userMessage : String) (app : LoanApplication) : LoanApplication :=
  if app.status = .offer_made ∧
      (acceptWords.any (fun w => strIn w (pyLower userMessage))) = true then
    {app with sanction_letter_generated := true, status := .sanctioned,
              sanction_letter_url := some (sanctionUrl (app.applicant_name.getD "") r.letterNum)}
  else app

/-- The whole `_process_business_logic` pass (`app/core/agent.py` lines
182-256), run once per turn against the user's raw text (the assistant
reply parameter of the Python function is never read).  The final
`update_session` write-back is the identity on the application record. -/
def processBusinessLogic (r : AgentRand) (userMessage : String)
    (app : LoanApplication) : LoanApplication :=
  autoSanction r userMessage
    (autoCredit r
      (autoKyc
        (extractPurpose userMessage
          (extractAmount userMessage
            (extractName userMessage app)))))

/-- One stored chat message (`SessionManager.add_message` builds a dict of
role, content and an ISO timestamp; the timestamp value is taken as a
parameter since it comes from the wall clock). -/
structure Message where
  role : String
  content : String
  timestamp : String
deriving DecidableEq, Repr

/-- The history-trimming step of `SessionManager.add_message`
(`app/core/session.py` lines 160-162): keep only the most recent
`MAX_MESSAGE_HISTORY` entries when the list exceeds that bound
(`messages[-MAX_MESSAGE_HISTORY:]`). -/
def pyTrim (msgs : List Message) : List Message :=
  if MAX_MESSAGE_HISTORY < msgs.length then
    msgs.drop (msgs.length - MAX_MESSAGE_HISTORY)
  else msgs

/-- The effect of `SessionManager.add_message` on an existing session's
message list (`app/core/session.py` lines 151-162): append, then trim.
(For an unknown session id the call is a no-op; the claims below concern
sessions that exist.) -/
def addMessageList (msgs : List Message) (m : Message) : List Message :=
  pyTrim (msgs ++ [m])

/-- A stored session, from `SessionManager.create_session`
(`app/core/session.py` lines 35-54).  `created_at` and the free-form
`extracted_info` map are omitted: no claim reads them. -/
structure Session where
  session_id : String
  messages : List Message
  loan_application : LoanApplication
deriving DecidableEq, Repr

/-- A freshly created session: empty history, default application. -/
def freshSession (sid : String) : Session :=
  { session_id := sid, messages := [], loan_application := freshLoanApplication }

/-- `add_message` at the session level. -/
def sessionAddMessage (s : Session) (role content ts : String) : Session :=
  {s with messages := addMessageList s.messages ⟨role, content, ts⟩}

/-- Outcome of the guarded LLM call in `process_message`
(`app/core/agent.py` lines 69-80): the hosted model either returns a
reply, times out (`asyncio.TimeoutError`), or fails some other way. -/
inductive LLMOutcome where
  | ok (content : String)
  | timeout
  | failed
deriving DecidableEq, Repr

/-- The fixed apology substituted on an LLM timeout. -/
def timeoutApology : String :=
  "I apologize, but I" ++ apos ++ "m taking longer than expected. Could you please try again?"

/-- The fixed apology substituted on any other LLM error. -/
def genericApology : String :=
  "I apologize, but I encountered an error. Please try again."

/-- The reply text `process_message` ends up with for each LLM outcome. -/
def llmReply : LLMOutcome → String
  | .ok content => content
  | .timeout => timeoutApology
  | .failed => genericApology

/-- `LoanSalesAgent.process_message` (`app/core/agent.py` lines 42-98):
look up the session (error if absent), append the user message, call the
LLM (absorbing timeout/errors into fixed apologies), append the reply,
run the business-logic pass on the user's raw text, and persist.  The
timestamps of the two appended messages are the parameters `ts1`, `ts2`;
the returned pair is the reply plus the updated session (whose
`loan_application` is the returned snapshot). -/
def processMessage (r : AgentRand) (out : LLMOutcome) (ts1 ts2 : String)
    (userMessage : String) (sess : Option Session) :
    Except String (String × Session) :=
  match sess with
  | none => .error "Session not found"
  | some s =>
    let s1 := sessionAddMessage s "user" userMessage ts1
    let reply := llmReply out
    let s2 := sessionAddMessage s1 "assistant" reply ts2
    let s3 := {s2 with loan_application :=
                         processBusinessLogic r userMessage s2.loan_application}
    .ok (reply, s3)

/-- One WebSocket chunk emitted by `stream_response`
(`app/core/agent.py` lines 119-128). -/
structure Chunk where
  type : String
  content : String
  session_id : String
  loan_application : Option LoanApplication
deriving DecidableEq, Repr

/-- The chunk built for word index `i` out of `total` words: the final
index carries type `"end"` and the application snapshot, earlier indices
carry type `"message"` and no snapshot; every chunk is the word plus a
trailing space. -/
def chunkFor (sid : String) (app : LoanApplication) (total i : Nat)
    (w : String) : Chunk :=
  if i = total - 1 then ⟨"end", w ++ " ", sid, some app⟩
  else ⟨"message", w ++ " ", sid, none⟩

/-- The chunk sequence of `stream_response` (`app/core/agent.py` lines
100-139) for a successfully processed turn: the processed reply is split
into whitespace words and re-emitted one chunk per word (the 50 ms pacing
delay is timing only and is not modelled). -/
def streamChunks (sid : String) (app : LoanApplication) (message : String) :
    List Chunk :=
  let words := pySplit message
  words.enum.map (fun p => chunkFor sid app words.length p.1 p.2)

/-- Result of the embedding plus vector-store search inside
`RAGSystem.query` (`app/core/rag.py` lines 108-119): either a document
list from the collection (`n_results=top_k` bounds its length) or any
exception from the embedding or the search. -/
inductive SearchOutcome where
  | found (docs : List String)
  | failed
deriving DecidableEq, Repr

/-- The generated source label for result index `i` (0-based):
`"Internal Knowledge Base - Document {i+1}"`. -/
def sourceLabel (i : Nat) : String :=
  "Internal Knowledge Base - Document " ++ toString (i + 1)

/-- `RAGSystem.query` (`app/core/rag.py` lines 93-131): raise
`"RAG system not initialized"` before initialization; afterwards return
the found documents paired with generated source labels, or the empty
pair on any embedding/search failure.  `ready` is the `_initialized`
flag set at the end of `RAGSystem.initialize`. -/
def ragQuery (ready : Bool) (out : SearchOutcome) (_query_text : String)
    (_top_k : Nat) : Except String (List String × List String) :=
  if ready = false then .error "RAG system not initialized"
  else
    match out with
    | .failed => .ok ([], [])
    | .found docs =>
      .ok (docs, (List.range docs.length).map (fun i => sourceLabel i))

/-- `SessionManager.delete_session` (`app/core/session.py` lines 97-113)
on the id set of the store: remove the id if present and report whether
it existed.  (Sessions are keyed by unique UUIDs, so the store's key set
is modelled as a duplicate-free list of ids.) -/
def managerDeleteSession (store : List String) (sid : String) :
    List String × Bool :=
  if sid ∈ store then (store.erase sid, true) else (store, false)

/-- The in-process metrics touched by the session endpoints
(`app/main.py` lines 33-38): total and active session counters. -/
structure Metrics where
  total_sessions : Int
  active_sessions : Int
deriving DecidableEq, Repr

/-- The session-creation bookkeeping shared by `create_session`,
`send_message` and the WebSocket endpoint (`app/main.py`): insert the new
id and increment both counters. -/
def createSessionEndpoint (store : List String) (m : Metrics) (sid : String) :
    List String × Metrics :=
  (store ++ [sid],
   { total_sessions := m.total_sessions + 1,
     active_sessions := m.active_sessions + 1 })

/-- The `DELETE /api/v1/sessions/{id}` handler (`app/main.py` lines
224-236): call the store's delete (discarding its boolean), clamp the
active-sessions counter down by one with floor zero, and return the fixed
success message — the handler never raises, so the HTTP status is 200 for
every id. -/
def deleteSessionEndpoint (store : List String) (m : Metrics) (sid : String) :
    List String × Metrics × String :=
  let store1 := (managerDeleteSession store sid).1
  (store1,
   {m with active_sessions := max 0 (m.active_sessions - 1)},
   "Session deleted successfully")
/-- The route string returned for continuing the conversation in the CLI
prototype's graph. -/
def routeAgent : String := "conversational_agent"

/-- The route string that terminates the CLI prototype's graph. -/
def routeEnd : String := "end_process"

/-- The CLI prototype's routing function `decide_next_step`
(`ai_studio_code.py` lines 287-347).  The Python function mutates
`state.current_loan_application.status` in two branches and returns a
route string, so the model returns the updated application together with
the route.  (The inspection of `last_msg.tool_calls` at the top of the
source function is a no-op — it only executes `pass`.) -/
def decideNextStep (app : LoanApplication) : LoanApplication × String :=
  if app.status = .initiated then
    if truthyOptStr app.applicant_name = false ∨
        truthyOptInt app.desired_amount = false ∨
        truthyOptStr app.purpose = false then
      (app, routeAgent)
    else ({app with status := .kyc_pending}, routeAgent)
  else if app.status = .kyc_pending then
    if app.kyc_verified = false then (app, routeAgent)
    else ({app with status := .credit_check_pending}, routeAgent)
  else if app.status = .credit_check_pending then
    if app.credit_eligibility = .pending then (app, routeAgent)
    else if app.credit_eligibility = .eligible then
      ({app with status := .offer_made}, routeAgent)
    else (app, routeAgent)
  else if app.status = .offer_made then (app, routeAgent)
  else if app.status = .sanctioned then (app, routeEnd)
  else if app.status = .rejected then (app, routeAgent)
  else (app, routeAgent)

/-- CLI tool `update_loan_application_details` (`ai_studio_code.py` lines
111-132): each argument is written into the application only when truthy.
The `SystemMessage` appended to the chat log is not modelled (no claim
reads the CLI chat log). -/
def update_loan_application_details (applicant_name : Option String)
    (desired_amount loan_term_months : Option Int) (purpose : Option String)
    (app : LoanApplication) : LoanApplication :=
  let app1 := if truthyOptStr applicant_name then
                {app with applicant_name := applicant_name} else app
  let app2 := if truthyOptInt desired_amount then
                {app1 with desired_amount := desired_amount} else app1
  let app3 := if truthyOptInt loan_term_months then
                {app2 with loan_term_months := loan_term_months} else app2
  if truthyOptStr purpose then {app3 with purpose := purpose} else app3

/-- CLI tool `verify_kyc` (`ai_studio_code.py` lines 162-174): always
succeeds; sets the verified flag and advances to `credit_check_pending`.
The `applicant_name` argument is only interpolated into log text. -/
def verify_kyc (app : LoanApplication) : LoanApplication :=
  {app with kyc_verified := true, status := .credit_check_pending}

/-- CLI tool `evaluate_creditworthiness` (`ai_studio_code.py` lines
176-200): unconditionally stores a drawn score (`random.randint(500,
850)`), then either makes an offer (score at least 650 and the
`desired_amount` argument at most 500000) or rejects, with the reject
branch setting `offered_amount = 0` and `offered_interest_rate = 0.0`.
There is no guard on the current eligibility or status. -/
def evaluate_creditworthiness (score draw : Int) (rateDraw : ℚ)
    (desired_amount : Int) (app : LoanApplication) : LoanApplication :=
  let app1 := {app with credit_score := some score}
  if 650 ≤ score ∧ desired_amount ≤ 500000 then
    {app1 with credit_eligibility := .eligible,
               offered_amount := some (min desired_amount draw),
               offered_interest_rate := some (roundTo2 rateDraw),
               status := .offer_made}
  else
    {app1 with credit_eligibility := .not_eligible,
               offered_amount := some 0,
               offered_interest_rate := some 0,
               status := .rejected}

/-- CLI tool `generate_loan_sanction_letter` (`ai_studio_code.py` lines
202-219): refuse (returning the state unchanged apart from a log message)
unless a truthy positive offer exists; otherwise set the generated flag
and `sanctioned`.  The mock URL goes into `extracted_info`, not into the
application record, so no application field is written for it. -/
def generate_loan_sanction_letter (app : LoanApplication) : LoanApplication :=
  match app.offered_amount with
  | none => app
  | some m =>
    if m ≤ 0 then app
    else {app with sanction_letter_generated := true, status := .sanctioned}

/-- Ranges of the CLI credit tool's draws: `random.randint(500, 850)`,
`random.randint(300000, 500000)`, `random.uniform(10.0, 12.5)`. -/
def CLIRandOK (score draw : Int) (rateDraw : ℚ) : Prop :=
  500 ≤ score ∧ score ≤ 850 ∧ 300000 ≤ draw ∧ draw ≤ 500000 ∧
  10 ≤ rateDraw ∧ rateDraw ≤ (25 : ℚ) / 2

/-- Loan-application states reachable from a fresh session by API chat
turns (each turn runs `_process_business_logic` with in-range draws). -/
inductive ReachChat : LoanApplication → Prop where
  | fresh : ReachChat freshLoanApplication
  | chat (r : AgentRand) (msg : String) (app : LoanApplication) :
      RandOK r → ReachChat app → ReachChat (processBusinessLogic r msg app)

/-- Loan-application states reachable from a fresh session or fresh CLI
graph state by any sequence of chat turns or CLI tool invocations (the
model may invoke any tool at any time with any arguments). -/
inductive ReachAny : LoanApplication → Prop where
  | fresh : ReachAny freshLoanApplication
  | chat (r : AgentRand) (msg : String) (app : LoanApplication) :
      RandOK r → ReachAny app → ReachAny (processBusinessLogic r msg app)
  | updateDetails (n : Option String) (a t : Option Int) (p : Option String)
      (app : LoanApplication) :
      ReachAny app → ReachAny (update_loan_application_details n a t p app)
  | kyc (app : LoanApplication) : ReachAny app → ReachAny (verify_kyc app)
  | credit (score draw : Int) (rateDraw : ℚ) (amt : Int)
      (app : LoanApplication) :
      CLIRandOK score draw rateDraw → ReachAny app →
      ReachAny (evaluate_creditworthiness score draw rateDraw amt app)
  | sanction (app : LoanApplication) :
      ReachAny app → ReachAny (generate_loan_sanction_letter app)
/-- The most recent `n` elements of a list, in order. -/
def lastN {α : Type} (n : Nat) (xs : List α) : List α :=
  xs.drop (xs.length - n)

theorem lastN_of_le {α : Type} {n : Nat} {xs : List α} (h : xs.length ≤ n) :
    lastN n xs = xs := by
  unfold lastN
  rw [Nat.sub_eq_zero_of_le h, List.drop_zero]

theorem lastN_cons_of_le {α : Type} {n : Nat} (x : α) (xs : List α)
    (h : n ≤ xs.length) : lastN n (x :: xs) = lastN n xs := by
  unfold lastN
  have e : (x :: xs).length - n = (xs.length - n) + 1 := by
    simp only [List.length_cons]
    omega
  rw [e, List.drop_succ_cons]

theorem length_lastN {α : Type} (n : Nat) (xs : List α) :
    (lastN n xs).length = min xs.length n := by
  unfold lastN
  rw [List.length_drop]
  omega

theorem lastN_append_left_eq {α : Type} (n : Nat) (A L : List α) :
    lastN n (lastN n A ++ L) = lastN n (A ++ L) := by
  induction A with
  | nil => simp [lastN]
  | cons a A ih =>
    by_cases h : n ≤ A.length
    · rw [lastN_cons_of_le a A h, ih, List.cons_append,
        lastN_cons_of_le a (A ++ L) (by simp only [List.length_append]; omega)]
    · have h1 : (a :: A).length ≤ n := by
        simp only [List.length_cons]
        omega
      rw [lastN_of_le h1]

theorem addMessageList_eq_lastN (msgs : List Message) (m : Message) :
    addMessageList msgs m = lastN MAX_MESSAGE_HISTORY (msgs ++ [m]) := by
  unfold addMessageList pyTrim lastN
  split
  · rfl
  · next h => rw [Nat.sub_eq_zero_of_le (Nat.le_of_not_lt h), List.drop_zero]

theorem foldl_addMessageList (L : List Message) :
    ∀ A : List Message, A.length ≤ MAX_MESSAGE_HISTORY →
      L.foldl addMessageList A = lastN MAX_MESSAGE_HISTORY (A ++ L) := by
  induction L with
  | nil => intro A hA; simp [lastN_of_le (by simpa using hA)]
  | cons m L ih =>
    intro A hA
    have hlen : (addMessageList A m).length ≤ MAX_MESSAGE_HISTORY := by
      rw [addMessageList_eq_lastN, length_lastN]
      omega
    calc (m :: L).foldl addMessageList A
        = L.foldl addMessageList (addMessageList A m) := rfl
      _ = lastN MAX_MESSAGE_HISTORY (addMessageList A m ++ L) := ih _ hlen
      _ = lastN MAX_MESSAGE_HISTORY ((A ++ [m]) ++ L) := by
          rw [addMessageList_eq_lastN, lastN_append_left_eq]
      _ = lastN MAX_MESSAGE_HISTORY (A ++ m :: L) := by
          rw [List.append_assoc]
          rfl

theorem roundTo2_bounds (q : ℚ) (h1 : 10 ≤ q) (h2 : q ≤ (25 : ℚ) / 2) :
    10 ≤ roundTo2 q ∧ roundTo2 q ≤ (25 : ℚ) / 2 := by
  unfold roundTo2
  rw [round_eq]
  have hlo : (1000 : ℤ) ≤ ⌊100 * q + 1 / 2⌋ := by
    rw [Int.le_floor]
    push_cast
    linarith
  have hfl : ((⌊100 * q + 1 / 2⌋ : ℤ) : ℚ) ≤ 100 * q + 1 / 2 := Int.floor_le _
  have hhi : ⌊100 * q + 1 / 2⌋ ≤ (1250 : ℤ) := by
    have hq : ((⌊100 * q + 1 / 2⌋ : ℤ) : ℚ) < 1251 := by linarith
    have hz : ⌊100 * q + 1 / 2⌋ < (1251 : ℤ) := by exact_mod_cast hq
    omega
  have hloQ : (1000 : ℚ) ≤ ((⌊100 * q + 1 / 2⌋ : ℤ) : ℚ) := by exact_mod_cast hlo
  have hhiQ : ((⌊100 * q + 1 / 2⌋ : ℤ) : ℚ) ≤ 1250 := by exact_mod_cast hhi
  constructor
  · rw [le_div_iff₀ (by norm_num : (0 : ℚ) < 100)]
    linarith
  · rw [div_le_div_iff₀ (by norm_num : (0 : ℚ) < 100) (by norm_num : (0 : ℚ) < 2)]
    linarith
/-- The chat message of testable property 2. -/
def c1Message : String := "My name is Rahul Kumar, I need 2 lakh for a car"

theorem c1_extraction :
    autoKyc (extractPurpose c1Message (extractAmount c1Message
      (extractName c1Message freshLoanApplication))) =
    { applicant_name := some "Rahul Kumar",
      desired_amount := some 200000,
      purpose := some "Car",
      kyc_verified := true,
      status := .credit_check_pending } := by
  decide

theorem c1_no_accept_word :
    (acceptWords.any (fun w => strIn w (pyLower c1Message))) = false := by
  decide

/-- Claim C1: for a fresh session, sending the single chat message
"My name is Rahul Kumar, I need 2 lakh for a car" through
`process_message` completes the turn (the result is `ok` with the LLM
reply) and leaves the loan application with `applicant_name` starting
with "Rahul", `desired_amount = 200000`, `purpose = "Car"`,
`kyc_verified = true`, and `status` advanced at least to
`credit_check_pending` — concretely, to `offer_made` or `rejected`, both
of which lie beyond `credit_check_pending` in the flow. -/
theorem claim1_first_turn (r : AgentRand) (out : LLMOutcome)
    (ts1 ts2 sid : String) :
    ∃ s : Session,
      processMessage r out ts1 ts2 c1Message (some (freshSession sid)) =
        .ok (llmReply out, s) ∧
      s.loan_application.applicant_name = some ("Rahul" ++ " Kumar") ∧
      s.loan_application.desired_amount = some 200000 ∧
      s.loan_application.purpose = some "Car" ∧
      s.loan_application.kyc_verified = true ∧
      (s.loan_application.status = .offer_made ∨
        s.loan_application.status = .rejected) := by
  refine ⟨_, rfl, ?_⟩
  have happ :
      (sessionAddMessage (sessionAddMessage (freshSession sid) "user" c1Message ts1)
        "assistant" (llmReply out) ts2).loan_application = freshLoanApplication := rfl
  simp only [sessionAddMessage, freshSession, processBusinessLogic, c1_extraction]
  by_cases h : (650 : Int) ≤ r.creditScore
  · simp [autoCredit, autoSanction, c1_no_accept_word, h,
      MAX_PERSONAL_LOAN, MIN_CREDIT_SCORE]
  · simp [autoCredit, autoSanction, c1_no_accept_word, h,
      MAX_PERSONAL_LOAN, MIN_CREDIT_SCORE]
/-- Claim C2: whenever `desired_amount` is set (truthy, hence positive in
every program state, since extraction only stores non-negative values),
KYC is verified, and eligibility is pending, the auto credit step stores
the drawn score; for a drawn score at least 650 with the amount at most
500000 it sets eligibility `eligible`, status `offer_made`,
`offered_amount = min(desired_amount, offerDraw)` with the draw in
[300000, 500000] — hence positive and at most the desired amount — and an
interest rate in [10.0, 12.5] rounded to two decimals; otherwise it sets
eligibility `not_eligible`, status `rejected`, and leaves both offer
fields untouched. -/
theorem claim2_auto_credit (r : AgentRand) (app : LoanApplication) (m : Int)
    (hr : RandOK r) (hamt : app.desired_amount = some m) (hm0 : 0 < m)
    (hkyc : app.kyc_verified = true) (helig : app.credit_eligibility = .pending) :
    ((MIN_CREDIT_SCORE ≤ r.creditScore ∧ m ≤ MAX_PERSONAL_LOAN) →
      (autoCredit r app).credit_eligibility = .eligible ∧
      (autoCredit r app).status = .offer_made ∧
      (autoCredit r app).offered_amount = some (min m r.offerDraw) ∧
      0 < min m r.offerDraw ∧ min m r.offerDraw ≤ m ∧
      (autoCredit r app).offered_interest_rate = some (roundTo2 r.rateDraw) ∧
      10 ≤ roundTo2 r.rateDraw ∧ roundTo2 r.rateDraw ≤ (25 : ℚ) / 2) ∧
    ((r.creditScore < MIN_CREDIT_SCORE ∨ MAX_PERSONAL_LOAN < m) →
      (autoCredit r app).credit_eligibility = .not_eligible ∧
      (autoCredit r app).status = .rejected ∧
      (autoCredit r app).offered_amount = app.offered_amount ∧
      (autoCredit r app).offered_interest_rate = app.offered_interest_rate) ∧
    (autoCredit r app).credit_score = some r.creditScore := by
  obtain ⟨-, -, hdraw, -, hrate1, hrate2, -, -⟩ := hr
  have hguard : app.kyc_verified = true ∧ m ≠ 0 ∧ app.credit_eligibility = .pending :=
    ⟨hkyc, by omega, helig⟩
  refine ⟨?_, ?_, ?_⟩
  · intro hok
    have : autoCredit r app =
        { app with credit_score := some r.creditScore,
                   credit_eligibility := .eligible,
                   offered_amount := some (min m r.offerDraw),
                   offered_interest_rate := some (roundTo2 r.rateDraw),
                   status := .offer_made } := by
      unfold autoCredit
      rw [hamt]
      simp [hguard, hok]
    obtain ⟨hb1, hb2⟩ := roundTo2_bounds r.rateDraw hrate1 hrate2
    refine ⟨by simp [this], by simp [this], by simp [this], ?_, ?_, by simp [this],
      hb1, hb2⟩
    · exact lt_min hm0 (by omega)
    · exact min_le_left _ _
  · intro hbad
    have hnot : ¬(MIN_CREDIT_SCORE ≤ r.creditScore ∧ m ≤ MAX_PERSONAL_LOAN) := by
      unfold MIN_CREDIT_SCORE MAX_PERSONAL_LOAN at hbad ⊢
      omega
    have : autoCredit r app =
        { app with credit_score := some r.creditScore,
                   credit_eligibility := .not_eligible,
                   status := .rejected } := by
      unfold autoCredit
      rw [hamt]
      simp [hguard, hnot]
    refine ⟨by simp [this], by simp [this], by simp [this], by simp [this]⟩
  · unfold autoCredit
    rw [hamt]
    by_cases hok : MIN_CREDIT_SCORE ≤ r.creditScore ∧ m ≤ MAX_PERSONAL_LOAN
    · simp [hguard, hok]
    · simp [hguard, hok]

/-- Concrete application state for the C2 witness: amount set, KYC done,
eligibility pending. -/
def c2App : LoanApplication :=
  { freshLoanApplication with desired_amount := some 200000, kyc_verified := true }

/-- Concrete in-range draws for the C2 witness. -/
def c2Rand : AgentRand := ⟨700, 350000, 11, 5000⟩

theorem claim2_auto_credit_witness :
    (autoCredit c2Rand c2App).credit_eligibility = .eligible ∧
    (autoCredit c2Rand c2App).status = .offer_made ∧
    (autoCredit c2Rand c2App).offered_amount = some (min 200000 c2Rand.offerDraw) ∧
    0 < min (200000 : Int) c2Rand.offerDraw ∧
    min (200000 : Int) c2Rand.offerDraw ≤ 200000 ∧
    (autoCredit c2Rand c2App).offered_interest_rate = some (roundTo2 c2Rand.rateDraw) ∧
    10 ≤ roundTo2 c2Rand.rateDraw ∧ roundTo2 c2Rand.rateDraw ≤ (25 : ℚ) / 2 :=
  (claim2_auto_credit c2Rand c2App 200000
      (by refine ⟨?_, ?_, ?_, ?_, ?_, ?_, ?_, ?_⟩ <;> norm_num [c2Rand])
      rfl (by norm_num) rfl rfl).1
    (by norm_num [c2Rand, MIN_CREDIT_SCORE, MAX_PERSONAL_LOAN])
/-- A positive offer is recorded on the application. -/
def OfferedPos (app : LoanApplication) : Prop :=
  ∃ m : Int, app.offered_amount = some m ∧ 0 < m

/-- Inductive invariant of the API chat flow: the sanction flag implies
status `sanctioned`; an offer-stage or sanctioned application has KYC
done, settled eligibility and a positive offer; stored desired amounts
are non-negative. -/
def ChatInv (app : LoanApplication) : Prop :=
  (app.sanction_letter_generated = true → app.status = .sanctioned) ∧
  ((app.status = .offer_made ∨ app.status = .sanctioned) →
    app.kyc_verified = true ∧ app.credit_eligibility ≠ .pending ∧ OfferedPos app) ∧
  (∀ m : Int, app.desired_amount = some m → 0 ≤ m)

theorem extractName_shape (msg : String) (app : LoanApplication) :
    ∃ v, extractName msg app = {app with applicant_name := v} := by
  unfold extractName
  split
  · split
    · split
      · exact ⟨_, rfl⟩
      · exact ⟨app.applicant_name, rfl⟩
    · exact ⟨app.applicant_name, rfl⟩
  · exact ⟨app.applicant_name, rfl⟩

theorem extractAmount_shape (msg : String) (app : LoanApplication) :
    ∃ v, extractAmount msg app = {app with desired_amount := v} ∧
      (v = app.desired_amount ∨
        ∃ k : Nat, v = some ((k : Int) * 100000) ∨ v = some ((k : Int) * 1000)) := by
  unfold extractAmount
  split
  · split
    · split
      · exact ⟨_, rfl, Or.inr ⟨_, Or.inl rfl⟩⟩
      · split
        · exact ⟨_, rfl, Or.inr ⟨_, Or.inr rfl⟩⟩
        · exact ⟨app.desired_amount, rfl, Or.inl rfl⟩
    · exact ⟨app.desired_amount, rfl, Or.inl rfl⟩
  · exact ⟨app.desired_amount, rfl, Or.inl rfl⟩

theorem extractPurpose_shape (msg : String) (app : LoanApplication) :
    ∃ v, extractPurpose msg app = {app with purpose := v} := by
  unfold extractPurpose
  split
  · split
    · exact ⟨_, rfl⟩
    · exact ⟨app.purpose, rfl⟩
  · exact ⟨app.purpose, rfl⟩

theorem chatInv_extractName (msg : String) (app : LoanApplication)
    (h : ChatInv app) : ChatInv (extractName msg app) := by
  obtain ⟨v, hv⟩ := extractName_shape msg app
  rw [hv]
  exact h

theorem chatInv_extractAmount (msg : String) (app : LoanApplication)
    (h : ChatInv app) : ChatInv (extractAmount msg app) := by
  obtain ⟨v, hv, hval⟩ := extractAmount_shape msg app
  rw [hv]
  obtain ⟨h1, h2, h3⟩ := h
  refine ⟨h1, h2, ?_⟩
  intro m hm
  simp only at hm
  rcases hval with hval | ⟨k, hval | hval⟩
  · exact h3 m (hval ▸ hm)
  · rw [hval] at hm
    obtain rfl : ((k : Int) * 100000) = m := by simpa using hm
    positivity
  · rw [hval] at hm
    obtain rfl : ((k : Int) * 1000) = m := by simpa using hm
    positivity

theorem chatInv_extractPurpose (msg : String) (app : LoanApplication)
    (h : ChatInv app) : ChatInv (extractPurpose msg app) := by
  obtain ⟨v, hv⟩ := extractPurpose_shape msg app
  rw [hv]
  exact h

theorem chatInv_autoKyc (app : LoanApplication) (h : ChatInv app) :
    ChatInv (autoKyc app) := by
  obtain ⟨h1, h2, h3⟩ := h
  unfold autoKyc
  split
  · next hg =>
    obtain ⟨-, hkycF⟩ := hg
    refine ⟨?_, ?_, ?_⟩
    · intro hgen
      simp only at hgen
      have hk := (h2 (Or.inr (h1 hgen))).1
      rw [hk] at hkycF
      simp at hkycF
    · intro hs
      simp at hs
    · intro m hm
      simp only at hm
      exact h3 m hm
  · exact ⟨h1, h2, h3⟩

theorem chatInv_autoCredit (r : AgentRand) (app : LoanApplication)
    (hr : RandOK r) (h : ChatInv app) : ChatInv (autoCredit r app) := by
  obtain ⟨h1, h2, h3⟩ := h
  obtain ⟨-, -, hdraw, -, -, -, -, -⟩ := hr
  cases hda : app.desired_amount with
  | none =>
    unfold autoCredit
    rw [hda]
    exact ⟨h1, h2, h3⟩
  | some m =>
    unfold autoCredit
    rw [hda]
    dsimp only
    split
    · next hg =>
      obtain ⟨hkyc, hm0, hpend⟩ := hg
      have hgenF : app.sanction_letter_generated = false := by
        by_contra hc
        have hgen : app.sanction_letter_generated = true := by
          cases hx : app.sanction_letter_generated
          · exact absurd hx hc
          · rfl
        exact (h2 (Or.inr (h1 hgen))).2.1 hpend
      have hmpos : 0 < m := by
        have := h3 m hda
        omega
      split
      · refine ⟨?_, ?_, ?_⟩
        · intro hgen
          simp only [hgenF] at hgen
          simp at hgen
        · intro _
          refine ⟨by simpa using hkyc, by simp, ⟨min m r.offerDraw, by simp, ?_⟩⟩
          exact lt_min hmpos (by omega)
        · intro m2 hm2
          simp only at hm2
          rw [hm2] at hda
          exact h3 m2 hda
      · refine ⟨?_, ?_, ?_⟩
        · intro hgen
          simp only [hgenF] at hgen
          simp at hgen
        · intro hs
          simp at hs
        · intro m2 hm2
          simp only at hm2
          rw [hm2] at hda
          exact h3 m2 hda
    · exact ⟨h1, h2, h3⟩

theorem chatInv_autoSanction (r : AgentRand) (msg : String)
    (app : LoanApplication) (h : ChatInv app) :
    ChatInv (autoSanction r msg app) := by
  obtain ⟨h1, h2, h3⟩ := h
  unfold autoSanction
  split
  · next hg =>
    obtain ⟨hom, -⟩ := hg
    obtain ⟨hkyc, helig, m, hm, hmpos⟩ := h2 (Or.inl hom)
    refine ⟨?_, ?_, ?_⟩
    · intro _
      simp
    · intro _
      exact ⟨by simpa using hkyc, by simpa using helig, ⟨m, by simpa using hm, hmpos⟩⟩
    · intro m2 hm2
      simp only at hm2
      exact h3 m2 hm2
  · exact ⟨h1, h2, h3⟩

theorem chatInv_processBusinessLogic (r : AgentRand) (msg : String)
    (app : LoanApplication) (hr : RandOK r) (h : ChatInv app) :
    ChatInv (processBusinessLogic r msg app) :=
  chatInv_autoSanction r msg _
    (chatInv_autoCredit r _ hr
      (chatInv_autoKyc _
        (chatInv_extractPurpose msg _
          (chatInv_extractAmount msg _
            (chatInv_extractName msg app h)))))

theorem chatInv_fresh : ChatInv freshLoanApplication := by
  refine ⟨?_, ?_, ?_⟩ <;> intro h <;> simp_all [freshLoanApplication]
/-- A CLI tool sequence that reaches sanction and then re-invokes the
credit tool with an over-limit amount: update details, verify KYC,
evaluate credit (score 700, amount 100000 — offer made), generate the
sanction letter, then evaluate credit again for amount 600000. -/
def c3BadApp : LoanApplication :=
  evaluate_creditworthiness 700 300000 10 600000
    (generate_loan_sanction_letter
      (evaluate_creditworthiness 700 300000 10 100000
        (verify_kyc
          (update_loan_application_details (some "Rahul Kumar") (some 100000)
            none (some "Car") freshLoanApplication))))

/-- Claim C3 as stated is false: `c3BadApp` is reachable from a fresh
state by tool invocations, has `sanction_letter_generated = true`, yet
its status is `rejected` with `offered_amount = 0` — the CLI credit tool
has no pending-eligibility guard and its reject branch zeroes the offer
after sanction. -/
theorem claim3_counterexample :
    ReachAny c3BadApp ∧
    c3BadApp.sanction_letter_generated = true ∧
    c3BadApp.status = .rejected ∧
    c3BadApp.offered_amount = some 0 := by
  refine ⟨?_, by decide, by decide, by decide⟩
  have hcli : CLIRandOK 700 300000 10 := by
    refine ⟨?_, ?_, ?_, ?_, ?_, ?_⟩ <;> norm_num
  exact ReachAny.credit 700 300000 10 600000 _ hcli
    (ReachAny.sanction _
      (ReachAny.credit 700 300000 10 100000 _ hcli
        (ReachAny.kyc _
          (ReachAny.updateDetails (some "Rahul Kumar") (some 100000) none
            (some "Car") _ ReachAny.fresh))))

/-- Claim C3 (amended): restricted to states reachable from a fresh
session by API chat turns (`_process_business_logic` passes), the
invariant holds: `sanction_letter_generated = true` implies
`status = sanctioned` and a positive `offered_amount`.  (Arbitrary CLI
tool sequences can violate it, per the counterexample.) -/
theorem claim3_chat_invariant (app : LoanApplication) (h : ReachChat app)
    (hgen : app.sanction_letter_generated = true) :
    app.status = .sanctioned ∧ ∃ m : Int, app.offered_amount = some m ∧ 0 < m := by
  have hinv : ChatInv app := by
    clear hgen
    induction h with
    | fresh => exact chatInv_fresh
    | chat r msg a hr _ ih => exact chatInv_processBusinessLogic r msg a hr ih
  have hst := hinv.1 hgen
  obtain ⟨-, -, hpos⟩ := hinv.2.1 (Or.inr hst)
  exact ⟨hst, hpos⟩

/-- In-range draws used for the C3 witness turns. -/
def c3Rand : AgentRand := ⟨700, 350000, 11, 5000⟩

/-- A state reached by two chat turns: the introduction message and then
an acceptance, ending sanctioned with the letter generated. -/
def c3GoodApp : LoanApplication :=
  processBusinessLogic c3Rand "yes"
    (processBusinessLogic c3Rand
      "My name is Rahul Kumar, I need 2 lakh for a car" freshLoanApplication)

theorem claim3_chat_invariant_witness :
    c3GoodApp.sanction_letter_generated = true ∧
    c3GoodApp.status = .sanctioned ∧
    ∃ m : Int, c3GoodApp.offered_amount = some m ∧ 0 < m := by
  have hr : RandOK c3Rand := by
    refine ⟨?_, ?_, ?_, ?_, ?_, ?_, ?_, ?_⟩ <;> norm_num [c3Rand]
  have hreach : ReachChat c3GoodApp :=
    ReachChat.chat c3Rand "yes" _ hr
      (ReachChat.chat c3Rand "My name is Rahul Kumar, I need 2 lakh for a car" _ hr
        ReachChat.fresh)
  have hgen : c3GoodApp.sanction_letter_generated = true := by decide
  exact ⟨hgen, claim3_chat_invariant c3GoodApp hreach hgen⟩
theorem addMessageList_twice_suffix (X : List Message) (u a : Message) :
    ∃ pre, addMessageList (addMessageList X u) a = pre ++ [u, a] := by
  rw [addMessageList_eq_lastN, addMessageList_eq_lastN, lastN_append_left_eq]
  have hassoc : (X ++ [u]) ++ [a] = X ++ [u, a] := by simp
  rw [hassoc]
  unfold lastN
  have hkle : (X ++ [u, a]).length - MAX_MESSAGE_HISTORY ≤ X.length := by
    simp only [List.length_append, List.length_cons, List.length_nil]
    unfold MAX_MESSAGE_HISTORY
    omega
  exact ⟨X.drop _, List.drop_append_of_le_length hkle⟩

/-- Claim C4: when the LLM call times out, `process_message` substitutes
the fixed "taking longer than expected" apology as the reply and the
turn still completes: the result is `ok` (no exception surfaced), the
user message and the apology are both appended to the session history
(as its final two entries), and the business-logic pass has been applied
to the loan application of the persisted session. -/
theorem claim4_timeout_turn (r : AgentRand) (ts1 ts2 userMessage : String)
    (s : Session) :
    ∃ s2 : Session,
      processMessage r .timeout ts1 ts2 userMessage (some s) =
        .ok (timeoutApology, s2) ∧
      (∃ pre : List Message,
        s2.messages =
          pre ++ [⟨"user", userMessage, ts1⟩, ⟨"assistant", timeoutApology, ts2⟩]) ∧
      s2.loan_application = processBusinessLogic r userMessage s.loan_application := by
  refine ⟨_, rfl, ?_, rfl⟩
  exact addMessageList_twice_suffix s.messages _ _

/-- Claim C5: calling the knowledge-base query before initialization
completes yields the error "RAG system not initialized"; after
initialization, a successful search for any query text and top-k returns
the found documents (at most top-k of them, by the `n_results=top_k`
bound of the search) each paired with a source label
"Internal Knowledge Base - Document N" (N the 1-based result index),
while any embedding or search failure returns the empty pair instead of
propagating. -/
theorem claim5_rag_query (query_text : String) (top_k : Nat) :
    (∀ o : SearchOutcome,
      ragQuery false o query_text top_k = .error "RAG system not initialized") ∧
    (ragQuery true .failed query_text top_k = .ok ([], [])) ∧
    (∀ docs : List String, docs.length ≤ top_k →
      ∃ sources : List String,
        ragQuery true (.found docs) query_text top_k = .ok (docs, sources) ∧
        docs.length ≤ top_k ∧
        sources.length = docs.length ∧
        ∀ i (h : i < sources.length), sources.get ⟨i, h⟩ = sourceLabel i) := by
  refine ⟨fun o => rfl, rfl, ?_⟩
  intro docs hlen
  refine ⟨_, rfl, hlen, by simp, ?_⟩
  intro i h
  have hi : i < docs.length := by simpa using h
  simp [List.get_eq_getElem]

theorem claim5_rag_query_witness :
    ragQuery false .failed "KYC documents" 3 = .error "RAG system not initialized" ∧
    ragQuery true .failed "KYC documents" 3 = .ok ([], []) ∧
    ∃ sources : List String,
      ragQuery true (.found ["docA", "docB"]) "KYC documents" 3 =
        .ok (["docA", "docB"], sources) ∧
      (["docA", "docB"] : List String).length ≤ 3 ∧
      sources.length = (["docA", "docB"] : List String).length ∧
      ∀ i (h : i < sources.length), sources.get ⟨i, h⟩ = sourceLabel i :=
  ⟨(claim5_rag_query "KYC documents" 3).1 .failed,
   (claim5_rag_query "KYC documents" 3).2.1,
   (claim5_rag_query "KYC documents" 3).2.2 ["docA", "docB"] (by norm_num)⟩

/-- Claim C6: a session's stored history is exactly the fold of all its
appended messages through `add_message` (sessions are created with an
empty history), and after each append it equals the most recent
`min(n, MAX_MESSAGE_HISTORY)` appended messages in append order; in
particular appending 60 messages leaves exactly the last 50, in order. -/
theorem claim6_history_trim :
    (∀ L : List Message,
      L.foldl addMessageList [] = L.drop (L.length - MAX_MESSAGE_HISTORY) ∧
      (L.foldl addMessageList []).length = min L.length MAX_MESSAGE_HISTORY) ∧
    (∀ L : List Message, L.length = 60 →
      (L.foldl addMessageList []).length = 50 ∧
      L.foldl addMessageList [] = L.drop 10) := by
  have key : ∀ L : List Message,
      L.foldl addMessageList [] = lastN MAX_MESSAGE_HISTORY L := by
    intro L
    rw [foldl_addMessageList L [] (by simp)]
    rw [List.nil_append]
  constructor
  · intro L
    rw [key L]
    exact ⟨rfl, length_lastN _ _⟩
  · intro L hL
    rw [key L]
    constructor
    · rw [length_lastN, hL]
      decide
    · unfold lastN
      rw [hL]
      norm_num [MAX_MESSAGE_HISTORY]

/-- Sixty distinct appended messages for the C6 witness. -/
def c6Messages : List Message :=
  (List.range 60).map (fun i => ⟨"user", toString i, ""⟩)

theorem claim6_history_trim_witness :
    (c6Messages.foldl addMessageList []).length = 50 ∧
    c6Messages.foldl addMessageList [] = c6Messages.drop 10 :=
  claim6_history_trim.2 c6Messages (by simp [c6Messages])
/-- Claim C7: the CLI router, given status `credit_check_pending` with
eligibility `eligible`, advances the application to `offer_made` and
returns the continue-conversing route; given status `sanctioned`, it
returns the termination route. -/
theorem claim7_router (app : LoanApplication) :
    (app.status = .credit_check_pending → app.credit_eligibility = .eligible →
      decideNextStep app = ({app with status := .offer_made}, routeAgent)) ∧
    (app.status = .sanctioned → (decideNextStep app).2 = routeEnd) := by
  constructor
  · intro hs he
    unfold decideNextStep
    rw [hs, he]
    simp
  · intro hs
    unfold decideNextStep
    rw [hs]
    simp

/-- Router input for the C7 witness: pending credit check, eligible. -/
def c7AppA : LoanApplication :=
  { freshLoanApplication with status := .credit_check_pending,
                              credit_eligibility := .eligible }

/-- Router input for the C7 witness: sanctioned. -/
def c7AppB : LoanApplication := { freshLoanApplication with status := .sanctioned }

theorem claim7_router_witness :
    decideNextStep c7AppA = ({c7AppA with status := .offer_made}, routeAgent) ∧
    (decideNextStep c7AppB).2 = routeEnd :=
  ⟨(claim7_router c7AppA).1 rfl rfl, (claim7_router c7AppB).2 rfl⟩

theorem idxOf?_eq_none_of_not_mem {ws : List String} {t : String}
    (h : t ∉ ws) : idxOf? ws t = none := by
  induction ws with
  | nil => rfl
  | cons w ws ih =>
    unfold idxOf?
    rw [if_neg (by intro hw; exact h (hw ▸ List.mem_cons_self w ws)),
      ih (fun hm => h (List.mem_cons_of_mem w hm))]
    rfl

/-- Claim C8 as stated is false at the message "My name is": the trigger
phrase is present, the literal token "is" occurs, and the name is absent,
yet nothing is stored because no word follows "is".  Moreover the strip
removes the characters `.,!?` from both ends, not only trailing ones:
"My name is ,Rahul" stores "Rahul", not ",Rahul". -/
theorem claim8_counterexample :
    (strIn "name is" (pyLower "My name is") = true ∧
      "is" ∈ pySplit "My name is" ∧
      (extractName "My name is" freshLoanApplication).applicant_name = none) ∧
    (extractName "My name is ,Rahul" freshLoanApplication).applicant_name =
      some "Rahul" := by
  refine ⟨⟨by decide, by decide, by decide⟩, by decide⟩

/-- Claim C8 (amended): with the name still absent, (a) if the
whitespace-split tokens contain no literal "is" the name stays unchanged
even when a trigger phrase ("name is" / "i am" / the "i'm" contraction)
occurs in the lower-cased text; (b) if "is" first occurs at index i and a
trigger phrase is present, then when at least one word follows, the name
becomes the next one-to-two words joined by a space and stripped of the
characters `.,!?` at both ends, and when "is" is the last token the name
stays unchanged. -/
theorem claim8_name_extraction (msg : String) (app : LoanApplication)
    (hname : truthyOptStr app.applicant_name = false) :
    ("is" ∉ pySplit msg → (extractName msg app).applicant_name = app.applicant_name) ∧
    (∀ i : Nat, idxOf? (pySplit msg) "is" = some i →
      (strIn "name is" (pyLower msg) || strIn "i am" (pyLower msg) ||
        strIn ("i" ++ apos ++ "m") (pyLower msg)) = true →
      (i + 1 < (pySplit msg).length →
        (extractName msg app).applicant_name =
          some (stripPunct
            (String.intercalate " " (((pySplit msg).drop (i + 1)).take 2)))) ∧
      (i + 1 = (pySplit msg).length →
        (extractName msg app).applicant_name = app.applicant_name)) := by
  constructor
  · intro hmem
    unfold extractName
    split
    · rw [idxOf?_eq_none_of_not_mem hmem]
    · rfl
  · intro i hidx htrig
    constructor
    · intro hlt
      unfold extractName
      rw [if_pos ⟨hname, htrig⟩, hidx]
      dsimp only
      rw [if_pos hlt]
    · intro heq
      unfold extractName
      rw [if_pos ⟨hname, htrig⟩, hidx]
      dsimp only
      rw [if_neg (by omega : ¬ (i + 1 < (pySplit msg).length))]

theorem claim8_name_extraction_witness :
    ((extractName "My name island" freshLoanApplication).applicant_name =
      freshLoanApplication.applicant_name) ∧
    ((extractName "My name is Rahul Kumar, ok" freshLoanApplication).applicant_name =
      some (stripPunct (String.intercalate " "
        (((pySplit "My name is Rahul Kumar, ok").drop 3).take 2)))) ∧
    ((extractName "My name is" freshLoanApplication).applicant_name =
      freshLoanApplication.applicant_name) :=
  ⟨(claim8_name_extraction "My name island" freshLoanApplication rfl).1 (by decide),
   ((claim8_name_extraction "My name is Rahul Kumar, ok" freshLoanApplication rfl).2
      2 (by decide) (by decide)).1 (by decide),
   ((claim8_name_extraction "My name is" freshLoanApplication rfl).2
      2 (by decide) (by decide)).2 (by decide)⟩

/-- Claim C9: the delete-session endpoint always returns the success
message (hence HTTP 200), decrements the active-sessions metric with
floor zero, and leaves the store unchanged when the id is unknown;
consequently, after creating two sessions and deleting an unknown id,
the metric reads 1 while the store still holds 2 sessions. -/
theorem claim9_delete_endpoint :
    (∀ (store : List String) (m : Metrics) (sid : String),
      (deleteSessionEndpoint store m sid).2.2 = "Session deleted successfully" ∧
      (deleteSessionEndpoint store m sid).2.1.active_sessions =
        max 0 (m.active_sessions - 1) ∧
      (sid ∉ store → (deleteSessionEndpoint store m sid).1 = store)) ∧
    (createSessionEndpoint [] ⟨0, 0⟩ "a" = (["a"], ⟨1, 1⟩) ∧
      createSessionEndpoint ["a"] ⟨1, 1⟩ "b" = (["a", "b"], ⟨2, 2⟩) ∧
      (deleteSessionEndpoint ["a", "b"] ⟨2, 2⟩ "missing").2.1.active_sessions <
        ((deleteSessionEndpoint ["a", "b"] ⟨2, 2⟩ "missing").1.length : Int)) := by
  constructor
  · intro store m sid
    refine ⟨rfl, rfl, ?_⟩
    intro hmem
    unfold deleteSessionEndpoint managerDeleteSession
    simp [hmem]
  · refine ⟨rfl, rfl, by decide⟩

theorem claim9_delete_endpoint_witness :
    (deleteSessionEndpoint ["a"] ⟨1, 1⟩ "zzz").2.2 = "Session deleted successfully" ∧
    (deleteSessionEndpoint ["a"] ⟨1, 1⟩ "zzz").2.1.active_sessions =
      max 0 ((1 : Int) - 1) ∧
    (deleteSessionEndpoint ["a"] ⟨1, 1⟩ "zzz").1 = ["a"] := by
  obtain ⟨h1, h2, h3⟩ := claim9_delete_endpoint.1 ["a"] ⟨1, 1⟩ "zzz"
  exact ⟨h1, h2, h3 (by decide)⟩

/-- Claim C10: `stream_response` yields exactly one chunk per
whitespace-separated word of the processed reply, each chunk being the
word plus a trailing space; only the final chunk has type "end" and
carries the application snapshot, all earlier chunks have type "message"
and carry none; and a whitespace-only or empty reply yields no chunks at
all, hence no terminal "end" chunk and no snapshot for that turn. -/
theorem claim10_stream_chunks (sid : String) (app : LoanApplication)
    (message : String) :
    (streamChunks sid app message).length = (pySplit message).length ∧
    (∀ i w, (pySplit message)[i]? = some w → i + 1 < (pySplit message).length →
      (streamChunks sid app message)[i]? =
        some ⟨"message", w ++ " ", sid, none⟩) ∧
    (∀ i w, (pySplit message)[i]? = some w → i + 1 = (pySplit message).length →
      (streamChunks sid app message)[i]? =
        some ⟨"end", w ++ " ", sid, some app⟩) ∧
    (pySplit " " = [] ∧ streamChunks sid app " " = [] ∧
      streamChunks sid app "" = []) := by
  have hempty : pySplit " " = [] := by decide
  have hempty2 : pySplit "" = [] := by decide
  refine ⟨?_, ?_, ?_, hempty, ?_, ?_⟩
  · simp [streamChunks]
  · intro i w hw hlt
    simp only [streamChunks, List.getElem?_map, List.getElem?_enum, hw,
      Option.map_some']
    unfold chunkFor
    rw [if_neg (by omega : ¬ (i = (pySplit message).length - 1))]
  · intro i w hw heq
    simp only [streamChunks, List.getElem?_map, List.getElem?_enum, hw,
      Option.map_some']
    unfold chunkFor
    rw [if_pos (by omega : i = (pySplit message).length - 1)]
  · simp [streamChunks, hempty]
  · simp [streamChunks, hempty2]

theorem claim10_stream_chunks_witness :
    (streamChunks "s" freshLoanApplication "hello there friend").length = 3 ∧
    (streamChunks "s" freshLoanApplication "hello there friend")[0]? =
      some ⟨"message", "hello" ++ " ", "s", none⟩ ∧
    (streamChunks "s" freshLoanApplication "hello there friend")[2]? =
      some ⟨"end", "friend" ++ " ", "s", some freshLoanApplication⟩ :=
  ⟨by rw [(claim10_stream_chunks "s" freshLoanApplication "hello there friend").1]; decide,
   (claim10_stream_chunks "s" freshLoanApplication "hello there friend").2.1
     0 "hello" (by decide) (by decide),
   (claim10_stream_chunks "s" freshLoanApplication "hello there friend").2.2.1
     2 "friend" (by decide) (by decide)⟩
